import Mathlib

/-!
Verification of the Digit Duel room store (src/unnamed/part_006, the richest
variant of lib/gameStore) against its design documentation.

The evaluator and every room operation are shallowly embedded as total Lean
functions.  Strings are Lean String values; reading position i of a
JavaScript string is modelled by Option Char, with none standing for the
undefined value that out-of-range indexing yields in JavaScript.  A thrown
Error is modelled by Except.error carrying a constructor that names the
throw site; since every throw in the source happens before the saveRoom
call, an error result leaves the stored room unchanged, which applyOp makes
explicit.
-/

namespace DigitDuel

/-- Per-position verdict for one guessed digit (gameTypes, DigitFeedback). -/
inductive DigitFeedback
  | correct
  | misplaced
  | wrong
deriving DecidableEq

/-- The values guess[0], ..., guess[n-1] as JavaScript sees them: positions
past the end of the string read as none (undefined). -/
def optPad : List Char → Nat → List (Option Char)
  | _, 0 => []
  | [], n + 1 => none :: optPad [] n
  | c :: cs, n + 1 => some c :: optPad cs n

/-- The inner j-loop of the second pass of evaluateGuess: scan the pairs
(secret[j], usedSecret[j]) left to right and return the first index j with
usedSecret[j] false and secret[j] equal to the sought digit.  A sought digit
of none (undefined in JavaScript) never compares equal to a character. -/
def findUnconsumed : List (Char × Bool) → Option Char → Option Nat
  | [], _ => none
  | (c, u) :: rest, d =>
    if u = false ∧ some c = d then some 0
    else (findUnconsumed rest d).map (· + 1)

/-- usedSecret[j] := true, the consumption step of the second pass. -/
def consume : List (Char × Bool) → Nat → List (Char × Bool)
  | [], _ => []
  | (c, _) :: rest, 0 => (c, true) :: rest
  | p :: rest, j + 1 => p :: consume rest j

/-- Second pass of evaluateGuess.  The first argument holds, for each
position i, the pair (secret[i], guess[i]); the second argument holds the
pairs (secret[j], usedSecret[j]) shared by all iterations.  Position i was
marked correct by the first pass exactly when guess[i] === secret[i], which
is the test d = some s, so the emitted verdicts are: correct where the first
pass marked correct, misplaced where the scan finds an unconsumed match
(consuming it), and the initial value wrong otherwise. -/
def pass2 : List (Char × Option Char) → List (Char × Bool) → List DigitFeedback
  | [], _ => []
  | (s, d) :: rest, used =>
    if d = some s then
      DigitFeedback.correct :: pass2 rest used
    else
      match findUnconsumed used d with
      | some j => DigitFeedback.misplaced :: pass2 rest (consume used j)
      | none => DigitFeedback.wrong :: pass2 rest used

/-- evaluateGuess from part_006 lines 42-73, on the character lists of the
two strings.  The result array has secret.length entries; after the first
pass usedSecret[i] is exactly (guess[i] === secret[i]), and the second pass
produces the final verdicts. -/
def evaluateGuessL (secret guess : List Char) : List DigitFeedback :=
  let z := secret.zip (optPad guess secret.length)
  pass2 z (z.map (fun sd => (sd.1, sd.2 == some sd.1)))

/-- evaluateGuess on JavaScript strings, part_006 lines 42-73. -/
def evaluateGuess (secret guess : String) : List DigitFeedback :=
  evaluateGuessL secret.data guess.data

/-- Remove the first occurrence of a character from a list; this is the
specification notion of consuming the first matching unconsumed secret
position, the unconsumed positions being represented by the ordered list of
the digits they hold. -/
def removeFirst : List Char → Char → List Char
  | [], _ => []
  | x :: xs, c => if x = c then xs else x :: removeFirst xs c

/-- Second pass of the two-pass reference algorithm of specification
section 4.1, stated on the positionwise pairs (secret[i], guess[i]): a
position with guess[i] = secret[i] is correct; otherwise the unconsumed
secret positions (carried as the ordered list of their digits) are searched
left to right for guess[i], yielding misplaced and consuming the first
match when found, and wrong otherwise. -/
def specPass2 : List (Char × Char) → List Char → List DigitFeedback
  | [], _ => []
  | (s, g) :: rest, avail =>
    if g = s then
      DigitFeedback.correct :: specPass2 rest avail
    else if g ∈ avail then
      DigitFeedback.misplaced :: specPass2 rest (removeFirst avail g)
    else
      DigitFeedback.wrong :: specPass2 rest avail

/-- The two-pass reference algorithm of specification section 4.1 on
character lists: the first pass marks position i correct and consumes
secret position i exactly when guess[i] = secret[i], so the unconsumed
positions entering the second pass are those with guess[i] different from
secret[i], taken in order. -/
def specEvaluateL (secret guess : List Char) : List DigitFeedback :=
  let z := secret.zip guess
  specPass2 z ((z.filter (fun p => !(p.2 == p.1))).map Prod.fst)

/-- The two-pass reference algorithm of specification section 4.1 on
JavaScript strings. -/
def specTwoPassReference (secret guess : String) : List DigitFeedback :=
  specEvaluateL secret.data guess.data

/-- The digits held by the not yet consumed secret positions, in position
order, read off from the pairs (secret[j], usedSecret[j]). -/
def availOf (pairs : List (Char × Bool)) : List Char :=
  (pairs.filter (fun p => !p.2)).map Prod.fst

theorem availOf_cons_false (c : Char) (rest : List (Char × Bool)) :
    availOf ((c, false) :: rest) = c :: availOf rest := rfl

theorem availOf_cons_true (c : Char) (rest : List (Char × Bool)) :
    availOf ((c, true) :: rest) = availOf rest := rfl

theorem findUnconsumed_undefined (pairs : List (Char × Bool)) :
    findUnconsumed pairs none = none := by
  induction pairs with
  | nil => rfl
  | cons hd rest ih =>
    obtain ⟨c, u⟩ := hd
    simp [findUnconsumed, ih]

theorem findUnconsumed_none_iff (pairs : List (Char × Bool)) (c : Char) :
    findUnconsumed pairs (some c) = none ↔ c ∉ availOf pairs := by
  induction pairs with
  | nil => simp [findUnconsumed, availOf]
  | cons hd rest ih =>
    obtain ⟨c0, u⟩ := hd
    cases u with
    | true =>
      simp [findUnconsumed, availOf_cons_true, Option.map_eq_none', ih]
    | false =>
      by_cases hc : c0 = c
      · subst hc
        simp [findUnconsumed, availOf_cons_false]
      · simp [findUnconsumed, availOf_cons_false, hc, Option.map_eq_none', ih,
          Ne.symm hc]

theorem availOf_consume (pairs : List (Char × Bool)) (c : Char) :
    ∀ j, findUnconsumed pairs (some c) = some j →
      availOf (consume pairs j) = removeFirst (availOf pairs) c := by
  induction pairs with
  | nil => intro j h; simp [findUnconsumed] at h
  | cons hd rest ih =>
    intro j h
    obtain ⟨c0, u⟩ := hd
    cases u with
    | true =>
      simp [findUnconsumed, Option.map_eq_some'] at h
      obtain ⟨j', hj', rfl⟩ := h
      simp [consume, availOf_cons_true, ih j' hj']
    | false =>
      by_cases hc : c0 = c
      · subst hc
        simp [findUnconsumed] at h
        subst h
        show availOf ((c0, true) :: rest)
            = if c0 = c0 then availOf rest else c0 :: removeFirst (availOf rest) c0
        rw [availOf_cons_true, if_pos rfl]
      · simp [findUnconsumed, hc, Option.map_eq_some'] at h
        obtain ⟨j', hj', rfl⟩ := h
        show availOf ((c0, false) :: consume rest j')
            = if c0 = c then availOf rest else c0 :: removeFirst (availOf rest) c
        rw [availOf_cons_false, if_neg hc, ih j' hj']

/-- Core refinement between the two second passes: running the imperative
second pass over pairs of secret digit and used flag produces the same
verdicts as the specification second pass run over the list of digits of
the unconsumed positions. -/
theorem pass2_eq_specPass2 (z : List (Char × Char)) :
    ∀ pairs : List (Char × Bool),
      pass2 (z.map (fun p => (p.1, some p.2))) pairs = specPass2 z (availOf pairs) := by
  induction z with
  | nil => intro pairs; rfl
  | cons hd rest ih =>
    intro pairs
    obtain ⟨s, g⟩ := hd
    by_cases hgs : g = s
    · simp [pass2, specPass2, hgs, ih]
    · by_cases hmem : g ∈ availOf pairs
      · have hne : findUnconsumed pairs (some g) ≠ none := by
          rw [Ne, findUnconsumed_none_iff]
          simpa using hmem
        cases hf : findUnconsumed pairs (some g) with
        | none => exact absurd hf hne
        | some j =>
          simp [pass2, specPass2, hgs, hmem, hf, availOf_consume pairs g j hf, ih]
      · have hn : findUnconsumed pairs (some g) = none :=
          (findUnconsumed_none_iff pairs g).mpr hmem
        simp [pass2, specPass2, hgs, hmem, hn, ih]

theorem optPad_eq_map_some (g : List Char) : optPad g g.length = g.map some := by
  induction g with
  | nil => rfl
  | cons c cs ih => simp [optPad, ih]

theorem zip_map_some (s : List Char) :
    ∀ g : List Char, s.zip (g.map some) = (s.zip g).map (fun p => (p.1, some p.2)) := by
  induction s with
  | nil => intro g; simp
  | cons a s ih =>
    intro g
    cases g with
    | nil => simp
    | cons b g => simp [ih]

theorem availOf_map_mark (l : List (Char × Char)) :
    availOf (l.map (fun p => (p.1, p.2 == p.1)))
      = (l.filter (fun p => !(p.2 == p.1))).map Prod.fst := by
  induction l with
  | nil => rfl
  | cons hd rest ih =>
    obtain ⟨a, b⟩ := hd
    by_cases h : b = a
    · simp [availOf, List.filter_cons, h] at ih ⊢
      exact ih
    · simp [availOf, List.filter_cons, h] at ih ⊢
      exact ih

/-- The evaluator of part_006 agrees with the reference algorithm of
specification section 4.1 on equal-length inputs. -/
theorem evaluateGuessL_eq_spec (s g : List Char) (h : s.length = g.length) :
    evaluateGuessL s g = specEvaluateL s g := by
  show pass2 (s.zip (optPad g s.length))
        ((s.zip (optPad g s.length)).map (fun sd => (sd.1, sd.2 == some sd.1)))
      = specPass2 (s.zip g) (((s.zip g).filter (fun p => !(p.2 == p.1))).map Prod.fst)
  rw [h, optPad_eq_map_some, zip_map_some, List.map_map]
  have hfun : ((fun sd : Char × Option Char => (sd.1, sd.2 == some sd.1)) ∘
      (fun p : Char × Char => (p.1, some p.2)))
      = (fun p : Char × Char => (p.1, p.2 == p.1)) := rfl
  rw [hfun, pass2_eq_specPass2, availOf_map_mark]

theorem pass2_length (z : List (Char × Option Char)) :
    ∀ pairs, (pass2 z pairs).length = z.length := by
  induction z with
  | nil => intro pairs; rfl
  | cons hd rest ih =>
    intro pairs
    obtain ⟨s, d⟩ := hd
    by_cases hds : d = some s
    · simp [pass2, hds, ih]
    · cases hf : findUnconsumed pairs d with
      | some j => simp [pass2, hds, hf, ih]
      | none => simp [pass2, hds, hf, ih]

theorem optPad_length (n : Nat) : ∀ g : List Char, (optPad g n).length = n := by
  induction n with
  | zero => intro g; cases g <;> rfl
  | succ n ih => intro g; cases g <;> simp [optPad, ih]

theorem evaluateGuessL_length (s g : List Char) :
    (evaluateGuessL s g).length = s.length := by
  show (pass2 (s.zip (optPad g s.length))
      ((s.zip (optPad g s.length)).map (fun sd => (sd.1, sd.2 == some sd.1)))).length = s.length
  rw [pass2_length, List.length_zip, optPad_length, Nat.min_self]

theorem pass2_count_correct (z : List (Char × Option Char)) :
    ∀ pairs, (pass2 z pairs).count DigitFeedback.correct
      = z.countP (fun sd => sd.2 == some sd.1) := by
  induction z with
  | nil => intro pairs; rfl
  | cons hd rest ih =>
    intro pairs
    obtain ⟨s, d⟩ := hd
    by_cases hds : d = some s
    · simp [pass2, hds, ih, List.count_cons, List.countP_cons]
    · have hb : (d == some s) = false := by simp [hds]
      cases hf : findUnconsumed pairs d with
      | some j => simp [pass2, hds, hf, ih, List.count_cons, List.countP_cons, hb]
      | none => simp [pass2, hds, hf, ih, List.count_cons, List.countP_cons, hb]

theorem countP_map_mark (l : List (Char × Char)) :
    (l.map (fun p : Char × Char => (p.1, some p.2))).countP (fun sd => sd.2 == some sd.1)
      = l.countP (fun p => p.1 == p.2) := by
  induction l with
  | nil => rfl
  | cons hd rest ih =>
    obtain ⟨a, b⟩ := hd
    by_cases h : b = a
    · subst h
      simp [List.countP_cons, ih]
    · simp [List.countP_cons, ih, h, Ne.symm h]

theorem evaluateGuessL_count_correct (s g : List Char) (h : s.length = g.length) :
    (evaluateGuessL s g).count DigitFeedback.correct
      = (s.zip g).countP (fun p => p.1 == p.2) := by
  show (pass2 (s.zip (optPad g s.length))
      ((s.zip (optPad g s.length)).map (fun sd => (sd.1, sd.2 == some sd.1)))).count
        DigitFeedback.correct = _
  rw [h, optPad_eq_map_some, zip_map_some, pass2_count_correct, countP_map_mark]

theorem removeFirst_count_self {l : List Char} {c : Char} (h : c ∈ l) :
    l.count c = (removeFirst l c).count c + 1 := by
  induction l with
  | nil => cases h
  | cons x xs ih =>
    by_cases hx : x = c
    · subst hx
      simp [removeFirst, List.count_cons]
    · have hmem : c ∈ xs := by
        rcases List.mem_cons.mp h with h1 | h1
        · exact absurd h1.symm hx
        · exact h1
      simp [removeFirst, hx, List.count_cons, ih hmem]

theorem removeFirst_count_ne (l : List Char) {c e : Char} (h : e ≠ c) :
    (removeFirst l e).count c = l.count c := by
  induction l with
  | nil => rfl
  | cons x xs ih =>
    by_cases hx : x = e
    · subst hx
      simp [removeFirst, List.count_cons, h]
    · simp [removeFirst, hx, List.count_cons, ih]

/-- Per digit conservation on the specification side: the number of hits
(correct or misplaced) whose guess digit is c is bounded by the occurrences
of c among the available digits plus the exact matches of c still inside
the position list. -/
theorem specPass2_hits_bound (c : Char) (z : List (Char × Char)) :
    ∀ avail : List Char,
      ((z.zip (specPass2 z avail)).countP
          (fun pm => pm.1.2 == c
            && (pm.2 == DigitFeedback.correct || pm.2 == DigitFeedback.misplaced)))
        ≤ avail.count c + z.countP (fun p => (p.2 == p.1) && p.2 == c) := by
  induction z with
  | nil => intro avail; simp
  | cons hd rest ih =>
    intro avail
    obtain ⟨s, g⟩ := hd
    by_cases hgs : g = s
    · subst hgs
      by_cases hgc : g = c
      · subst hgc
        have h1 := ih avail
        simp [specPass2, List.countP_cons]
        omega
      · have h1 := ih avail
        simp [specPass2, List.countP_cons, hgc]
        omega
    · by_cases hmem : g ∈ avail
      · by_cases hgc : g = c
        · subst hgc
          have h1 := ih (removeFirst avail g)
          have h2 := removeFirst_count_self hmem
          simp [specPass2, hgs, hmem, List.countP_cons]
          omega
        · have h1 := ih (removeFirst avail g)
          have h2 := removeFirst_count_ne avail hgc
          simp [specPass2, hgs, hmem, List.countP_cons, hgc]
          omega
      · by_cases hgc : g = c
        · subst hgc
          have h1 := ih avail
          simp [specPass2, hgs, hmem, List.countP_cons]
          omega
        · have h1 := ih avail
          simp [specPass2, hgs, hmem, List.countP_cons, hgc]
          omega

theorem count_avail0 (z : List (Char × Char)) (c : Char) :
    ((z.filter (fun p => !(p.2 == p.1))).map Prod.fst).count c
      = z.countP (fun p => !(p.2 == p.1) && p.1 == c) := by
  induction z with
  | nil => rfl
  | cons hd rest ih =>
    obtain ⟨a, b⟩ := hd
    by_cases hba : b = a
    · simp [List.filter_cons, hba, List.countP_cons, ih]
    · by_cases hac : a = c
      · subst hac
        simp [List.filter_cons, hba, List.countP_cons, List.count_cons, ih]
      · simp [List.filter_cons, hba, List.countP_cons, List.count_cons, ih, hac]

theorem countP_mark_split (z : List (Char × Char)) (c : Char) :
    z.countP (fun p => (p.2 == p.1) && p.2 == c)
      + z.countP (fun p => !(p.2 == p.1) && p.1 == c)
      ≤ z.countP (fun p => p.1 == c) := by
  induction z with
  | nil => simp
  | cons hd rest ih =>
    obtain ⟨a, b⟩ := hd
    by_cases hba : b = a
    · subst hba
      by_cases hac : b = c
      · subst hac
        simp [List.countP_cons]
        omega
      · simp [List.countP_cons, hac]
        omega
    · by_cases hac : a = c
      · subst hac
        simp [List.countP_cons, hba]
        omega
      · simp [List.countP_cons, hba, hac]
        omega

theorem zip_countP_fst (c : Char) (s : List Char) :
    ∀ g : List Char, s.length = g.length →
      (s.zip g).countP (fun p => p.1 == c) = s.count c := by
  induction s with
  | nil => intro g h; simp
  | cons a s ih =>
    intro g h
    cases g with
    | nil => simp at h
    | cons b g =>
      have h' : s.length = g.length := by simpa using h
      by_cases hac : a = c <;> simp [List.countP_cons, List.count_cons, ih g h', hac]

theorem zip_zip_proj (P : Char → DigitFeedback → Bool) (s : List Char) :
    ∀ (g : List Char) (out : List DigitFeedback), s.length = g.length →
      ((s.zip g).zip out).countP (fun pm => P pm.1.2 pm.2)
        = (g.zip out).countP (fun pm => P pm.1 pm.2) := by
  induction s with
  | nil =>
    intro g out h
    cases g with
    | nil => simp
    | cons b g => simp at h
  | cons a s ih =>
    intro g out h
    cases g with
    | nil => simp at h
    | cons b g =>
      have h' : s.length = g.length := by simpa using h
      cases out with
      | nil => simp
      | cons o out => simp [List.countP_cons, ih g out h']

/-- Per digit conservation for the evaluator itself, stated on character
lists of equal length. -/
theorem evaluateGuessL_hits_bound (s g : List Char) (h : s.length = g.length) (d : Char) :
    (g.zip (evaluateGuessL s g)).countP
        (fun p => p.1 == d
          && (p.2 == DigitFeedback.correct || p.2 == DigitFeedback.misplaced))
      ≤ s.count d := by
  rw [evaluateGuessL_eq_spec s g h]
  show (g.zip (specPass2 (s.zip g)
      (((s.zip g).filter (fun p => !(p.2 == p.1))).map Prod.fst))).countP
        (fun p => p.1 == d
          && (p.2 == DigitFeedback.correct || p.2 == DigitFeedback.misplaced))
      ≤ s.count d
  rw [← zip_zip_proj
      (fun gc m => gc == d && (m == DigitFeedback.correct || m == DigitFeedback.misplaced))
      s g _ h]
  calc ((s.zip g).zip (specPass2 (s.zip g)
          (((s.zip g).filter (fun p => !(p.2 == p.1))).map Prod.fst))).countP
        (fun pm => pm.1.2 == d
          && (pm.2 == DigitFeedback.correct || pm.2 == DigitFeedback.misplaced))
      ≤ (((s.zip g).filter (fun p => !(p.2 == p.1))).map Prod.fst).count d
          + (s.zip g).countP (fun p => (p.2 == p.1) && p.2 == d) :=
        specPass2_hits_bound d (s.zip g) _
    _ = (s.zip g).countP (fun p => (p.2 == p.1) && p.2 == d)
          + (s.zip g).countP (fun p => !(p.2 == p.1) && p.1 == d) := by
        rw [count_avail0]; omega
    _ ≤ (s.zip g).countP (fun p => p.1 == d) := countP_mark_split (s.zip g) d
    _ = s.count d := zip_countP_fst d s g h

/-- C1: for every pair of equal-length digit strings, evaluateGuess equals
the two-pass reference algorithm of specification section 4.1: a first pass
marking position i correct and consuming secret position i exactly when
guess[i] equals secret[i], then a second pass that, for each position not
marked correct, scans the unconsumed secret positions strictly left to
right and marks misplaced (consuming the first match) when a position
holding guess[i] is found, and wrong otherwise. -/
theorem evaluateGuess_matches_two_pass_reference (secret guess : String)
    (hlen : secret.length = guess.length)
    (_hsec : secret.data.all Char.isDigit = true)
    (_hgue : guess.data.all Char.isDigit = true) :
    evaluateGuess secret guess = specTwoPassReference secret guess :=
  evaluateGuessL_eq_spec secret.data guess.data hlen

/-- Witness for C1 at a concrete duplicate-digit input. -/
theorem evaluateGuess_matches_two_pass_reference_witness :
    evaluateGuess "1123" "1111" = specTwoPassReference "1123" "1111" :=
  evaluateGuess_matches_two_pass_reference "1123" "1111" (by decide) (by decide) (by decide)

/-- C2 counterexample: on secret 1123 and guess 1111 the evaluator returns
two correct verdicts (positions 0 and 1 both match exactly) and no
misplaced verdict, so the claimed verdict distribution of exactly one
correct and exactly one misplaced is wrong. -/
theorem duplicate_case_counterexample :
    evaluateGuess "1123" "1111"
        = [DigitFeedback.correct, DigitFeedback.correct, DigitFeedback.wrong, DigitFeedback.wrong]
      ∧ ¬ ((evaluateGuess "1123" "1111").count DigitFeedback.correct = 1
        ∧ (evaluateGuess "1123" "1111").count DigitFeedback.misplaced = 1) := by
  constructor
  · decide
  · decide

/-- C2 amended: evaluateGuess on secret 1123 and guess 1111 yields exactly
two correct verdicts (positions 0 and 1), no misplaced verdict, and wrong
at the two remaining positions. -/
theorem duplicate_case_amended :
    evaluateGuess "1123" "1111"
        = [DigitFeedback.correct, DigitFeedback.correct, DigitFeedback.wrong, DigitFeedback.wrong]
      ∧ (evaluateGuess "1123" "1111").count DigitFeedback.correct = 2
      ∧ (evaluateGuess "1123" "1111").count DigitFeedback.misplaced = 0 := by
  refine ⟨?_, ?_, ?_⟩ <;> decide

/-- C9: for equal-length digit strings the feedback has the length of the
secret, its number of correct verdicts equals the number of positions where
secret and guess agree, and, for every digit d, the number of guess
positions holding d that receive correct or misplaced never exceeds the
number of occurrences of d in the secret. -/
theorem evaluateGuess_feedback_conservation (secret guess : String)
    (hlen : secret.length = guess.length)
    (_hsec : secret.data.all Char.isDigit = true)
    (_hgue : guess.data.all Char.isDigit = true) :
    (evaluateGuess secret guess).length = secret.length
  ∧ (evaluateGuess secret guess).count DigitFeedback.correct
      = (secret.data.zip guess.data).countP (fun p => p.1 == p.2)
  ∧ ∀ d : Char,
      (guess.data.zip (evaluateGuess secret guess)).countP
          (fun p => p.1 == d
            && (p.2 == DigitFeedback.correct || p.2 == DigitFeedback.misplaced))
        ≤ secret.data.count d :=
  ⟨evaluateGuessL_length secret.data guess.data,
   evaluateGuessL_count_correct secret.data guess.data hlen,
   fun d => evaluateGuessL_hits_bound secret.data guess.data hlen d⟩

/-- Witness for C9 at a concrete duplicate-digit input, with digit 1. -/
theorem evaluateGuess_feedback_conservation_witness :
    (evaluateGuess "1213" "1122").count DigitFeedback.correct
        = (("1213" : String).data.zip ("1122" : String).data).countP (fun p => p.1 == p.2)
      ∧ (("1122" : String).data.zip (evaluateGuess "1213" "1122")).countP
          (fun p => p.1 == '1'
            && (p.2 == DigitFeedback.correct || p.2 == DigitFeedback.misplaced))
        ≤ ("1213" : String).data.count '1' :=
  ⟨(evaluateGuess_feedback_conservation "1213" "1122" (by decide) (by decide) (by decide)).2.1,
   (evaluateGuess_feedback_conservation "1213" "1122" (by decide) (by decide) (by decide)).2.2 '1'⟩

/-- C10: evaluateGuess is a total function on arbitrary pairs of strings
(the embedding is total by construction, mirroring the JavaScript function,
which can not throw), and the feedback always has exactly the length of the
secret argument, also when the two strings have different lengths or hold
characters that are not digits; there is no length-mismatch failure
branch. -/
theorem evaluateGuess_total_secret_length (secret guess : String) :
    (evaluateGuess secret guess).length = secret.length :=
  evaluateGuessL_length secret.data guess.data

/-! Room data model, from gameTypes as used by part_006: the store code
reads and writes digitCount, round, lastReaction, winnerId and the
per-player reaction fields, so the record types carry them.  Optional
JavaScript fields are Option values; round is optional because the store
reads it as room.round ?? 1. -/

/-- One guess record (gameTypes, Guess). -/
structure Guess where
  value : String
  feedback : List DigitFeedback
  createdAt : Nat
deriving DecidableEq

/-- The ephemeral reaction record written by sendReaction. -/
structure Reaction where
  emoji : String
  playerId : String
  createdAt : Nat
deriving DecidableEq

/-- One player record (gameTypes, Player, plus the reaction fields that
part_006 writes). -/
structure Player where
  id : String
  name : String
  avatar : String
  secret : Option String
  ready : Bool
  guesses : List Guess
  lastReaction : Option String
  lastReactionAt : Option Nat
deriving DecidableEq

/-- Room lifecycle phase (gameTypes, RoomStatus). -/
inductive RoomStatus
  | waitingForPlayers
  | settingSecret
  | inProgress
  | finished
deriving DecidableEq

/-- The room record (gameTypes, Room, plus digitCount, round and
lastReaction, which part_006 reads and writes). -/
structure Room where
  id : String
  players : List Player
  status : RoomStatus
  winnerId : Option String
  createdAt : Nat
  digitCount : Nat
  round : Option Nat
  lastReaction : Option Reaction
deriving DecidableEq

/-- Typed failures; each constructor names one throw site of part_006:
roomNotFound is thrown when the store holds no record for the id, roomFull
by joinRoom, invalidSecretFormat and invalidGuessFormat by the digit
pattern tests, playerNotFound by setSecret, rematchRoom and sendReaction,
invalidPhase is the makeGuess guard on a status other than inProgress,
invalidGameState the makeGuess guard on a missing player, missing opponent
or missing opponent secret, and notAMember is thrown by
serializeRoomForPlayer. -/
inductive GameError
  | roomNotFound
  | roomFull
  | invalidSecretFormat
  | playerNotFound
  | invalidPhase
  | invalidGuessFormat
  | invalidGameState
  | notAMember
deriving DecidableEq

/-- JavaScript truthiness of an optional string field: undefined and the
empty string are falsy. -/
def truthyStr : Option String → Bool
  | none => false
  | some s => !(s == "")

/-- The regular expression test of part_006 for a string of exactly n
digits. -/
def isDigitString (s : String) (n : Nat) : Bool :=
  s.length == n && s.data.all Char.isDigit

/-- players.find of part_006 with predicate p.id === playerId: the first
player with the given id. -/
def findPlayer : List Player → String → Option Player
  | [], _ => none
  | p :: rest, pid => if p.id = pid then some p else findPlayer rest pid

/-- players.find of part_006 with predicate p.id !== playerId: the first
player with a different id, the opponent. -/
def findOpponent : List Player → String → Option Player
  | [], _ => none
  | p :: rest, pid => if p.id ≠ pid then some p else findOpponent rest pid

/-- In-place mutation of the player object returned by players.find: the
first player with the given id is replaced by f applied to it, everyone
else is untouched. -/
def updateFirst : List Player → String → (Player → Player) → List Player
  | [], _, _ => []
  | p :: rest, pid, f => if p.id = pid then f p :: rest else p :: updateFirst rest pid f

/-- The fresh player record built by joinRoom (the generated id is a
parameter here; id generation is outside the modelled core). -/
def mkJoiningPlayer (pid name avatar : String) : Player :=
  { id := pid, name := name, avatar := avatar, secret := none, ready := false,
    guesses := [], lastReaction := none, lastReactionAt := none }

/-- joinRoom, part_006 lines 119-138, acting on the loaded room record (the
roomNotFound branch belongs to the store lookup, which is abstracted into
passing the loaded record). -/
def joinRoom (room : Room) (pid name avatar : String) :
    Except GameError (Room × Player) :=
  if room.players.length ≥ 2 then
    Except.error GameError.roomFull
  else
    let player := mkJoiningPlayer pid name avatar
    let status :=
      if room.status = RoomStatus.waitingForPlayers then RoomStatus.settingSecret
      else room.status
    Except.ok ({ room with players := room.players ++ [player], status := status }, player)

/-- setSecret, part_006 lines 144-168: validate the digit pattern, find the
player, set the secret and the ready flag, then recompute the status: with
two players that are all ready and hold truthy secrets the room moves to
inProgress, otherwise to settingSecret.  Note that the source guards
neither on the current status nor on the secret being still unset. -/
def setSecret (room : Room) (playerId secret : String) : Except GameError Room :=
  if isDigitString secret room.digitCount then
    match findPlayer room.players playerId with
    | none => Except.error GameError.playerNotFound
    | some _ =>
      let players :=
        updateFirst room.players playerId
          (fun p => { p with secret := some secret, ready := true })
      let status :=
        if players.length = 2 ∧ players.all (fun p => p.ready && truthyStr p.secret) then
          RoomStatus.inProgress
        else
          RoomStatus.settingSecret
      Except.ok { room with players := players, status := status }
  else
    Except.error GameError.invalidSecretFormat

/-- makeGuess, part_006 lines 170-206: guard the phase, validate the digit
pattern, find guesser and opponent, require a truthy opponent secret,
evaluate, append the guess record to the guesser, and on an exact match
finish the game recording the winner. -/
def makeGuess (room : Room) (playerId guess : String) (now : Nat) :
    Except GameError (Room × Guess × Bool) :=
  if room.status = RoomStatus.inProgress then
    if isDigitString guess room.digitCount then
      match findPlayer room.players playerId, findOpponent room.players playerId with
      | some player, some opponent =>
        match opponent.secret with
        | some s =>
          if s = "" then
            Except.error GameError.invalidGameState
          else
            let feedback := evaluateGuess s guess
            let guessObj : Guess := { value := guess, feedback := feedback, createdAt := now }
            let isWin := guess == s
            let players :=
              updateFirst room.players playerId
                (fun p => { p with guesses := p.guesses ++ [guessObj] })
            let room' :=
              if isWin then
                { room with
                  players := players
                  status := RoomStatus.finished
                  winnerId := some player.id }
              else
                { room with players := players }
            Except.ok (room', guessObj, isWin)
        | none => Except.error GameError.invalidGameState
      | _, _ => Except.error GameError.invalidGameState
    else
      Except.error GameError.invalidGuessFormat
  else
    Except.error GameError.invalidPhase

/-- The per-player reset performed by rematchRoom: the spread keeps the
identity and reaction fields and clears secret, ready and guesses. -/
def clearForRematch (p : Player) : Player :=
  { p with secret := none, ready := false, guesses := [] }

/-- rematchRoom, part_006 lines 208-229. -/
def rematchRoom (room : Room) (playerId : String) : Except GameError Room :=
  match findPlayer room.players playerId with
  | none => Except.error GameError.playerNotFound
  | some _ =>
    let players := room.players.map clearForRematch
    Except.ok { room with
      players := players
      status :=
        if players.length = 2 then RoomStatus.settingSecret
        else RoomStatus.waitingForPlayers
      winnerId := none
      lastReaction := none
      round := some (room.round.getD 1 + 1) }

/-- sendReaction, part_006 lines 231-253. -/
def sendReaction (room : Room) (playerId emoji : String) (now : Nat) :
    Except GameError Room :=
  match findPlayer room.players playerId with
  | none => Except.error GameError.playerNotFound
  | some _ =>
    let players :=
      updateFirst room.players playerId
        (fun p => { p with lastReaction := some emoji, lastReactionAt := some now })
    Except.ok { room with
      players := players
      lastReaction := some { emoji := emoji, playerId := playerId, createdAt := now } }

/-- The public projection of a player (no secret field). -/
structure PublicPlayerView where
  id : String
  name : String
  avatar : String
  ready : Bool
  guesses : List Guess
  lastReaction : Option String
  lastReactionAt : Option Nat
deriving DecidableEq

/-- The view returned by serializeRoomForPlayer. -/
structure PublicView where
  roomId : String
  status : RoomStatus
  winnerId : Option String
  opponentSecret : Option String
  digitCount : Nat
  round : Nat
  lastReaction : Option Reaction
  you : PublicPlayerView
  opponent : Option PublicPlayerView
deriving DecidableEq

/-- Projection of a player into the public view fields. -/
def toPublicPlayer (p : Player) : PublicPlayerView :=
  { id := p.id, name := p.name, avatar := p.avatar, ready := p.ready,
    guesses := p.guesses, lastReaction := p.lastReaction,
    lastReactionAt := p.lastReactionAt }

/-- serializeRoomForPlayer, part_006 lines 255-291: the opponent secret is
included exactly when the status is finished, an opponent exists and the
opponent secret is truthy. -/
def serializeRoomForPlayer (room : Room) (playerId : String) :
    Except GameError PublicView :=
  match findPlayer room.players playerId with
  | none => Except.error GameError.notAMember
  | some you =>
    let opponent := findOpponent room.players playerId
    let opponentSecret :=
      match room.status, opponent with
      | RoomStatus.finished, some opp => if truthyStr opp.secret then opp.secret else none
      | _, _ => none
    Except.ok
      { roomId := room.id, status := room.status, winnerId := room.winnerId,
        opponentSecret := opponentSecret, digitCount := room.digitCount,
        round := room.round.getD 1, lastReaction := room.lastReaction,
        you := toPublicPlayer you, opponent := opponent.map toPublicPlayer }

/-- The opponentSecret field of the serialized view, or none when
serialization fails. -/
def serializedOpponentSecret (room : Room) (playerId : String) : Option String :=
  match serializeRoomForPlayer room playerId with
  | Except.ok v => v.opponentSecret
  | Except.error _ => none

/-- One store operation (the mutating entry points of part_006). -/
inductive Op
  | join (pid name avatar : String)
  | set (pid secret : String)
  | guess (pid g : String) (now : Nat)
  | rematch (pid : String)
  | react (pid emoji : String) (now : Nat)

/-- Effect of one operation on the stored room record.  Every throw in the
source happens before saveRoom, so a failing operation leaves the stored
record exactly as it was. -/
def applyOp (room : Room) : Op → Room
  | Op.join pid name avatar =>
    match joinRoom room pid name avatar with
    | Except.ok (r, _) => r
    | Except.error _ => room
  | Op.set pid secret =>
    match setSecret room pid secret with
    | Except.ok r => r
    | Except.error _ => room
  | Op.guess pid g now =>
    match makeGuess room pid g now with
    | Except.ok (r, _, _) => r
    | Except.error _ => room
  | Op.rematch pid =>
    match rematchRoom room pid with
    | Except.ok r => r
    | Except.error _ => room
  | Op.react pid emoji now =>
    match sendReaction room pid emoji now with
    | Except.ok r => r
    | Except.error _ => room

instance {ε α : Type} [DecidableEq ε] [DecidableEq α] : DecidableEq (Except ε α) := fun x y =>
  match x, y with
  | Except.ok a, Except.ok b => decidable_of_iff (a = b) (by simp)
  | Except.error e, Except.error f => decidable_of_iff (e = f) (by simp)
  | Except.ok _, Except.error _ => isFalse (fun h => Except.noConfusion h)
  | Except.error _, Except.ok _ => isFalse (fun h => Except.noConfusion h)

/-- Whether a setSecret call succeeds on the given room. -/
def setSucceeds (room : Room) (pid s : String) : Bool :=
  match setSecret room pid s with
  | Except.ok _ => true
  | Except.error _ => false

/-- Whether a makeGuess call succeeds on the given room. -/
def guessSucceeds (room : Room) (pid g : String) (t : Nat) : Bool :=
  match makeGuess room pid g t with
  | Except.ok _ => true
  | Except.error _ => false

theorem findPlayer_id (ps : List Player) (pid : String) :
    ∀ p, findPlayer ps pid = some p → p.id = pid := by
  induction ps with
  | nil => intro p h; simp [findPlayer] at h
  | cons q rest ih =>
    intro p h
    by_cases hq : q.id = pid
    · simp [findPlayer, hq] at h
      rw [← h]
      exact hq
    · simp [findPlayer, hq] at h
      exact ih p h

theorem findPlayer_mem (ps : List Player) (pid : String) :
    ∀ p, findPlayer ps pid = some p → p ∈ ps := by
  induction ps with
  | nil => intro p h; simp [findPlayer] at h
  | cons q rest ih =>
    intro p h
    by_cases hq : q.id = pid
    · simp [findPlayer, hq] at h
      simp [← h]
    · simp [findPlayer, hq] at h
      simp [ih p h]

theorem findOpponent_mem (ps : List Player) (pid : String) :
    ∀ p, findOpponent ps pid = some p → p ∈ ps := by
  induction ps with
  | nil => intro p h; simp [findOpponent] at h
  | cons q rest ih =>
    intro p h
    by_cases hq : q.id ≠ pid
    · simp [findOpponent, hq] at h
      simp [← h]
    · simp [findOpponent, hq] at h
      simp [ih p h]

theorem updateFirst_length (ps : List Player) (pid : String) (f : Player → Player) :
    (updateFirst ps pid f).length = ps.length := by
  induction ps with
  | nil => rfl
  | cons q rest ih =>
    by_cases hq : q.id = pid
    · simp [updateFirst, hq]
    · simp [updateFirst, hq, ih]

theorem updateFirst_map_secret (ps : List Player) (pid : String) (f : Player → Player)
    (hf : ∀ p, (f p).secret = p.secret) :
    (updateFirst ps pid f).map Player.secret = ps.map Player.secret := by
  induction ps with
  | nil => rfl
  | cons q rest ih =>
    by_cases hq : q.id = pid
    · simp [updateFirst, hq, hf]
    · simp [updateFirst, hq, ih]

theorem updateFirst_getElem_ne (ps : List Player) (pid : String) (f : Player → Player) :
    ∀ (i : Nat) (p : Player), ps[i]? = some p → p.id ≠ pid →
      (updateFirst ps pid f)[i]? = some p := by
  induction ps with
  | nil => intro i p h; simp at h
  | cons q rest ih =>
    intro i p h hne
    cases i with
    | zero =>
      simp at h
      subst h
      simp [updateFirst, hne]
    | succ i =>
      simp at h
      by_cases hq : q.id = pid
      · simp [updateFirst, hq, h]
      · simp [updateFirst, hq, ih i p h hne]

theorem mem_updateFirst (ps : List Player) (pid : String) (f : Player → Player) :
    ∀ q, q ∈ updateFirst ps pid f → q ∈ ps ∨ ∃ p ∈ ps, q = f p := by
  induction ps with
  | nil => intro q h; simp [updateFirst] at h
  | cons r rest ih =>
    intro q h
    by_cases hr : r.id = pid
    · simp [updateFirst, hr] at h
      rcases h with h | h
      · right
        exact ⟨r, by simp, h⟩
      · left
        simp [h]
    · simp [updateFirst, hr] at h
      rcases h with h | h
      · left
        simp [h]
      · rcases ih q h with h1 | ⟨p, hp, he⟩
        · left
          simp [h1]
        · right
          exact ⟨p, by simp [hp], he⟩

theorem isDigitString_ne_empty (s : String) (n : Nat) (hv : isDigitString s n = true)
    (hn : 0 < n) : s ≠ "" := by
  intro he
  subst he
  simp [isDigitString] at hv
  omega

/-! Concrete fixtures used by witnesses and counterexamples. -/

/-- Host player, already holding a secret and ready. -/
def playerA : Player :=
  { id := "a", name := "Ann", avatar := "A", secret := some "1234", ready := true,
    guesses := [], lastReaction := none, lastReactionAt := none }

/-- Guest player, already holding a secret and ready. -/
def playerB : Player :=
  { id := "b", name := "Bob", avatar := "B", secret := some "5678", ready := true,
    guesses := [], lastReaction := none, lastReactionAt := none }

/-- A two-player room in the middle of a round. -/
def roomLive : Room :=
  { id := "11111", players := [playerA, playerB], status := RoomStatus.inProgress,
    winnerId := none, createdAt := 0, digitCount := 4, round := some 1,
    lastReaction := none }

/-- roomLive after player a guesses the secret of player b exactly. -/
def roomAfterWin : Room := applyOp roomLive (Op.guess "a" "5678" 10)

/-- roomAfterWin after player a calls setSecret again, with no rematch in
between. -/
def roomAfterReset : Room := applyOp roomAfterWin (Op.set "a" "9999")

/-- Host player before choosing a secret. -/
def playerA0 : Player := { playerA with secret := none, ready := false }

/-- Guest player before choosing a secret. -/
def playerB0 : Player := { playerB with secret := none, ready := false }

/-- A two-player room in which nobody has set a secret yet. -/
def roomSetting : Room :=
  { roomLive with players := [playerA0, playerB0], status := RoomStatus.settingSecret }

/-- roomSetting after player a sets the secret 1111. -/
def roomS1 : Room := applyOp roomSetting (Op.set "a" "1111")

/-- roomS1 after player a sets a second secret 2222 in the same round. -/
def roomS2 : Room := applyOp roomS1 (Op.set "a" "2222")

/-- A one-player room waiting for an opponent. -/
def roomSolo : Room :=
  { roomLive with players := [playerA0], status := RoomStatus.waitingForPlayers }

/-- C7: joinRoom on a room that already has 2 players fails with the
roomFull error and leaves the stored room record unchanged. -/
theorem join_full_fails (room : Room) (pid name avatar : String)
    (h2 : room.players.length = 2) :
    joinRoom room pid name avatar = Except.error GameError.roomFull
  ∧ applyOp room (Op.join pid name avatar) = room := by
  have hge : room.players.length ≥ 2 := by omega
  constructor
  · simp [joinRoom, hge]
  · simp [applyOp, joinRoom, hge]

/-- Witness for C7 on a concrete two-player room. -/
theorem join_full_fails_witness :
    joinRoom roomLive "z" "Zoe" "Z" = Except.error GameError.roomFull
  ∧ applyOp roomLive (Op.join "z" "Zoe" "Z") = roomLive :=
  join_full_fails roomLive "z" "Zoe" "Z" (by decide)

/-- C8: rematchRoom, called by a member of the room, clears the secret, the ready
flag and the guesses of every player, clears winnerId and lastReaction,
increments round by 1, and sets the status to settingSecret when 2 players
are present and to waitingForPlayers otherwise. -/
theorem rematch_resets (room : Room) (pid : String) (player : Player) (r : Nat)
    (hmem : findPlayer room.players pid = some player)
    (hround : room.round = some r) :
    rematchRoom room pid = Except.ok (applyOp room (Op.rematch pid))
  ∧ (∀ p ∈ (applyOp room (Op.rematch pid)).players,
      p.secret = none ∧ p.ready = false ∧ p.guesses = [])
  ∧ (applyOp room (Op.rematch pid)).winnerId = none
  ∧ (applyOp room (Op.rematch pid)).lastReaction = none
  ∧ (applyOp room (Op.rematch pid)).round = some (r + 1)
  ∧ (applyOp room (Op.rematch pid)).status
      = (if room.players.length = 2 then RoomStatus.settingSecret
         else RoomStatus.waitingForPlayers) := by
  have hok : rematchRoom room pid = Except.ok { room with
      players := room.players.map clearForRematch
      status :=
        if (room.players.map clearForRematch).length = 2 then RoomStatus.settingSecret
        else RoomStatus.waitingForPlayers
      winnerId := none
      lastReaction := none
      round := some (room.round.getD 1 + 1) } := by
    simp [rematchRoom, hmem]
  have happly : applyOp room (Op.rematch pid) = { room with
      players := room.players.map clearForRematch
      status :=
        if (room.players.map clearForRematch).length = 2 then RoomStatus.settingSecret
        else RoomStatus.waitingForPlayers
      winnerId := none
      lastReaction := none
      round := some (room.round.getD 1 + 1) } := by
    simp [applyOp, hok]
  refine ⟨by rw [hok, happly], ?_, ?_, ?_, ?_, ?_⟩
  · rw [happly]
    intro p hp
    simp at hp
    obtain ⟨q, _, rfl⟩ := hp
    exact ⟨rfl, rfl, rfl⟩
  · rw [happly]
  · rw [happly]
  · rw [happly]
    simp [hround]
  · rw [happly]
    simp [List.length_map]

/-- Witness for C8 on a concrete two-player room. -/
theorem rematch_resets_witness :
    (applyOp roomLive (Op.rematch "a")).winnerId = none
  ∧ (applyOp roomLive (Op.rematch "a")).round = some 2 :=
  ⟨(rematch_resets roomLive "a" playerA 1 (by decide) (by decide)).2.2.1,
   (rematch_resets roomLive "a" playerA 1 (by decide) (by decide)).2.2.2.2.1⟩

/-- C4: on a well-formed room with two joined players, a valid setSecret
call succeeds and moves the status to inProgress exactly when, after the
call, both players are ready with a secret set; when some player still has
no secret after the call, the status is settingSecret.  Well-formedness
asks that the digit count is positive and that no stored secret is the
empty string, which holds for every room the store creates. -/
theorem setSecret_inProgress_iff (room : Room) (pid secret : String)
    (h2 : room.players.length = 2)
    (hwf : ∀ p ∈ room.players, p.secret ≠ some "")
    (hdc : 0 < room.digitCount)
    (hval : isDigitString secret room.digitCount = true)
    (hmem : findPlayer room.players pid ≠ none) :
    setSecret room pid secret = Except.ok (applyOp room (Op.set pid secret))
  ∧ ((applyOp room (Op.set pid secret)).status = RoomStatus.inProgress
      ↔ ∀ p ∈ (applyOp room (Op.set pid secret)).players,
          p.ready = true ∧ p.secret ≠ none)
  ∧ ((∃ p ∈ (applyOp room (Op.set pid secret)).players, p.secret = none)
      → (applyOp room (Op.set pid secret)).status = RoomStatus.settingSecret) := by
  have hne : secret ≠ "" := isDigitString_ne_empty secret room.digitCount hval hdc
  cases hfp : findPlayer room.players pid with
  | none => exact absurd hfp hmem
  | some q =>
    have hok : setSecret room pid secret = Except.ok { room with
        players := updateFirst room.players pid
          (fun p => { p with secret := some secret, ready := true })
        status :=
          if (updateFirst room.players pid
                  (fun p => { p with secret := some secret, ready := true })).length = 2
              ∧ (updateFirst room.players pid
                  (fun p => { p with secret := some secret, ready := true })).all
                  (fun p => p.ready && truthyStr p.secret) then
            RoomStatus.inProgress
          else RoomStatus.settingSecret } := by
      simp [setSecret, hval, hfp]
    have happly : applyOp room (Op.set pid secret) = { room with
        players := updateFirst room.players pid
          (fun p => { p with secret := some secret, ready := true })
        status :=
          if (updateFirst room.players pid
                  (fun p => { p with secret := some secret, ready := true })).length = 2
              ∧ (updateFirst room.players pid
                  (fun p => { p with secret := some secret, ready := true })).all
                  (fun p => p.ready && truthyStr p.secret) then
            RoomStatus.inProgress
          else RoomStatus.settingSecret } := by
      simp [applyOp, hok]
    have hlen : (updateFirst room.players pid
        (fun p => { p with secret := some secret, ready := true })).length = 2 := by
      rw [updateFirst_length]
      exact h2
    have hall : ∀ p ∈ updateFirst room.players pid
        (fun p => { p with secret := some secret, ready := true }),
        p.secret ≠ some "" := by
      intro p hp
      rcases mem_updateFirst _ _ _ p hp with hmem0 | ⟨p0, _, rfl⟩
      · exact hwf p hmem0
      · simpa using hne
    refine ⟨by rw [hok, happly], ?_, ?_⟩
    · rw [happly]
      constructor
      · intro hst p hp
        simp only at hst
        by_cases hcond : (updateFirst room.players pid
              (fun p => { p with secret := some secret, ready := true })).length = 2
            ∧ (updateFirst room.players pid
              (fun p => { p with secret := some secret, ready := true })).all
              (fun p => p.ready && truthyStr p.secret)
        · have hone := List.all_eq_true.mp hcond.2 p (by simpa using hp)
          simp at hone
          refine ⟨hone.1, ?_⟩
          cases hs : p.secret with
          | none =>
            rw [hs] at hone
            simp [truthyStr] at hone
          | some s => simp
        · rw [if_neg hcond] at hst
          exact absurd hst (by simp)
      · intro hready
        simp only
        rw [if_pos]
        refine ⟨hlen, ?_⟩
        rw [List.all_eq_true]
        intro p hp
        obtain ⟨hr, hsne⟩ := hready p (by simpa using hp)
        cases hs : p.secret with
        | none => exact absurd hs hsne
        | some s =>
          have hs0 : s ≠ "" := by
            have := hall p hp
            rw [hs] at this
            intro he
            subst he
            exact this rfl
          simp [hr, truthyStr, hs, hs0]
    · rw [happly]
      rintro ⟨p, hp, hpnone⟩
      simp only
      rw [if_neg]
      rintro ⟨-, hcond⟩
      have := List.all_eq_true.mp hcond p (by simpa using hp)
      rw [hpnone] at this
      simp [truthyStr] at this

/-- Witness for C4: a concrete setSecret call by the second player moves
the room to inProgress. -/
theorem setSecret_inProgress_iff_witness :
    setSecret roomS1 "b" "2222" = Except.ok (applyOp roomS1 (Op.set "b" "2222")) :=
  (setSecret_inProgress_iff roomS1 "b" "2222" (by decide) (by decide) (by decide)
    (by decide) (by decide)).1

/-- C5: for a member player of a well-formed room (no stored secret is the
empty string), the serialized view carries the opponent secret exactly when
the room status is finished and the opponent exists and has a secret set;
in every other status the view never carries the opponent secret, and when
it does carry one it is exactly the secret of the opponent. -/
theorem serialize_hides_secret (room : Room) (pid : String)
    (hmem : findPlayer room.players pid ≠ none)
    (hwf : ∀ p ∈ room.players, p.secret ≠ some "") :
    (serializedOpponentSecret room pid ≠ none
        ↔ room.status = RoomStatus.finished
          ∧ (findOpponent room.players pid).bind Player.secret ≠ none)
  ∧ (room.status ≠ RoomStatus.finished → serializedOpponentSecret room pid = none)
  ∧ (serializedOpponentSecret room pid ≠ none
      → serializedOpponentSecret room pid
          = (findOpponent room.players pid).bind Player.secret) := by
  cases hfp : findPlayer room.players pid with
  | none => exact absurd hfp hmem
  | some you =>
    cases hst : room.status with
    | finished =>
      cases hfo : findOpponent room.players pid with
      | none =>
        simp [serializedOpponentSecret, serializeRoomForPlayer, hfp, hst, hfo]
      | some opp =>
        cases hos : opp.secret with
        | none =>
          simp [serializedOpponentSecret, serializeRoomForPlayer, hfp, hst, hfo, hos,
            truthyStr]
        | some s =>
          have hs0 : s ≠ "" := by
            have := hwf opp (findOpponent_mem room.players pid opp hfo)
            rw [hos] at this
            intro he
            subst he
            exact this rfl
          simp [serializedOpponentSecret, serializeRoomForPlayer, hfp, hst, hfo, hos,
            truthyStr, hs0]
    | waitingForPlayers =>
      simp [serializedOpponentSecret, serializeRoomForPlayer, hfp, hst]
    | settingSecret =>
      simp [serializedOpponentSecret, serializeRoomForPlayer, hfp, hst]
    | inProgress =>
      simp [serializedOpponentSecret, serializeRoomForPlayer, hfp, hst]

/-- Witness for C5: in a concrete finished room the view of player a
carries exactly the secret of player b. -/
theorem serialize_hides_secret_witness :
    serializedOpponentSecret roomAfterWin "a"
      = (findOpponent roomAfterWin.players "a").bind Player.secret :=
  (serialize_hides_secret roomAfterWin "a" (by decide) (by decide)).2.2 (by decide)

/-- C3 counterexample: after the winning guess of player a the room is
finished with winner a and a guess by b fails, but a setSecret by a - with
no rematch anywhere in the sequence - puts the room back to inProgress, and
the next makeGuess by b succeeds instead of failing with the invalidPhase
error. -/
theorem win_then_reopen_counterexample :
    roomAfterWin.status = RoomStatus.finished
  ∧ roomAfterWin.winnerId = some "a"
  ∧ guessSucceeds roomAfterWin "b" "0000" 20 = false
  ∧ setSucceeds roomAfterWin "a" "9999" = true
  ∧ roomAfterReset.status = RoomStatus.inProgress
  ∧ guessSucceeds roomAfterReset "b" "0000" 20 = true := by
  refine ⟨?_, ?_, ?_, ?_, ?_, ?_⟩ <;> decide

/-- C3 amended: a winning guess in a live well-formed room (guesser and
opponent present, positive digit count, valid opponent secret) finishes the
room recording the guesser as winner; on a finished room every makeGuess
fails with the invalidPhase error and leaves the stored record unchanged,
and neither joinRoom nor sendReaction can leave the finished status, so
guessing stays disabled until a rematch - or a setSecret, which the code
also permits on a finished room and which can return the status to
inProgress - occurs. -/
theorem winning_guess_finishes_game :
    (∀ (room : Room) (pid : String) (now : Nat) (player opp : Player) (s : String),
        room.status = RoomStatus.inProgress →
        0 < room.digitCount →
        findPlayer room.players pid = some player →
        findOpponent room.players pid = some opp →
        opp.secret = some s →
        isDigitString s room.digitCount = true →
        makeGuess room pid s now
            = Except.ok (applyOp room (Op.guess pid s now),
                { value := s, feedback := evaluateGuess s s, createdAt := now }, true)
          ∧ (applyOp room (Op.guess pid s now)).status = RoomStatus.finished
          ∧ (applyOp room (Op.guess pid s now)).winnerId = some pid)
  ∧ (∀ (room : Room) (pid g : String) (t : Nat),
        room.status = RoomStatus.finished →
        makeGuess room pid g t = Except.error GameError.invalidPhase
          ∧ applyOp room (Op.guess pid g t) = room)
  ∧ (∀ (room : Room) (pid name avatar e : String) (t : Nat),
        room.status = RoomStatus.finished →
        (applyOp room (Op.join pid name avatar)).status = RoomStatus.finished
          ∧ (applyOp room (Op.react pid e t)).status = RoomStatus.finished) := by
  refine ⟨?_, ?_, ?_⟩
  · intro room pid now player opp s hst hdc hfp hfo hos hval
    have hs0 : s ≠ "" := isDigitString_ne_empty s room.digitCount hval hdc
    have hid := findPlayer_id room.players pid player hfp
    have hok : makeGuess room pid s now = Except.ok ({ room with
        players := updateFirst room.players pid
          (fun p => { p with guesses := p.guesses
            ++ [{ value := s, feedback := evaluateGuess s s, createdAt := now }] })
        status := RoomStatus.finished
        winnerId := some player.id },
        { value := s, feedback := evaluateGuess s s, createdAt := now }, true) := by
      simp [makeGuess, hst, hval, hfp, hfo, hos, hs0]
    have happly : applyOp room (Op.guess pid s now) = { room with
        players := updateFirst room.players pid
          (fun p => { p with guesses := p.guesses
            ++ [{ value := s, feedback := evaluateGuess s s, createdAt := now }] })
        status := RoomStatus.finished
        winnerId := some player.id } := by
      simp [applyOp, hok]
    refine ⟨by rw [hok, happly], by rw [happly], by rw [happly]; simp [hid]⟩
  · intro room pid g t hst
    constructor
    · simp [makeGuess, hst]
    · simp [applyOp, makeGuess, hst]
  · intro room pid name avatar e t hst
    constructor
    · by_cases hfull : room.players.length ≥ 2
      · simp [applyOp, joinRoom, hfull, hst]
      · simp [applyOp, joinRoom, hfull, hst]
    · cases hfp : findPlayer room.players pid with
      | none => simp [applyOp, sendReaction, hfp, hst]
      | some q => simp [applyOp, sendReaction, hfp, hst]

/-- Witness for the amended C3: on the concrete finished room the next
guess fails with the invalidPhase error and the record is unchanged. -/
theorem winning_guess_finishes_game_witness :
    makeGuess roomAfterWin "b" "0000" 20 = Except.error GameError.invalidPhase
  ∧ applyOp roomAfterWin (Op.guess "b" "0000" 20) = roomAfterWin :=
  winning_guess_finishes_game.2.1 roomAfterWin "b" "0000" 20 (by decide)

/-- C6 counterexample: player a sets the secret 1111, then - with no
rematch in between - a second setSecret call by a in the same round
succeeds and replaces the stored secret by 2222, so the secret is not
write-once per round. -/
theorem secret_rewritten_counterexample :
    (findPlayer roomS1.players "a").map Player.secret = some (some "1111")
  ∧ setSucceeds roomS1 "a" "2222" = true
  ∧ (findPlayer roomS2.players "a").map Player.secret = some (some "2222") := by
  refine ⟨?_, ?_, ?_⟩ <;> decide

/-- C6 amended: within a round the stored secret of a player is changed only by
setSecret calls naming that player: joinRoom only appends a fresh player
with no secret, makeGuess and sendReaction never change any secret, and
setSecret leaves every player with a different id untouched; the code does
not, however, prevent a second setSecret for the same player in the same
round from replacing an already set secret. -/
theorem secret_changed_only_by_setSecret :
    (∀ (room : Room) (pid name avatar : String) (r : Room) (p : Player),
        joinRoom room pid name avatar = Except.ok (r, p) →
        r.players.map Player.secret = room.players.map Player.secret ++ [none])
  ∧ (∀ (room : Room) (pid g : String) (t : Nat) (r : Room) (gu : Guess) (w : Bool),
        makeGuess room pid g t = Except.ok (r, gu, w) →
        r.players.map Player.secret = room.players.map Player.secret)
  ∧ (∀ (room : Room) (pid e : String) (t : Nat) (r : Room),
        sendReaction room pid e t = Except.ok r →
        r.players.map Player.secret = room.players.map Player.secret)
  ∧ (∀ (room : Room) (pid s : String) (r : Room),
        setSecret room pid s = Except.ok r →
        ∀ (i : Nat) (p : Player), room.players[i]? = some p → p.id ≠ pid →
          r.players[i]? = some p) := by
  refine ⟨?_, ?_, ?_, ?_⟩
  · intro room pid name avatar r p h
    by_cases hfull : room.players.length ≥ 2
    · simp [joinRoom, hfull] at h
    · simp [joinRoom, hfull] at h
      obtain ⟨h1, -⟩ := h
      rw [← h1]
      simp [mkJoiningPlayer]
  · intro room pid g t r gu w h
    by_cases hst : room.status = RoomStatus.inProgress
    · by_cases hval : isDigitString g room.digitCount
      · cases hfp : findPlayer room.players pid with
        | none =>
          simp [makeGuess, hst, hval, hfp] at h
        | some player =>
          cases hfo : findOpponent room.players pid with
          | none => simp [makeGuess, hst, hval, hfp, hfo] at h
          | some opp =>
            cases hos : opp.secret with
            | none => simp [makeGuess, hst, hval, hfp, hfo, hos] at h
            | some s =>
              by_cases hs0 : s = ""
              · simp [makeGuess, hst, hval, hfp, hfo, hos, hs0] at h
              · by_cases hw : g = s
                · subst hw
                  simp [makeGuess, hst, hval, hfp, hfo, hos, hs0] at h
                  obtain ⟨h1, -, -⟩ := h
                  rw [← h1]
                  exact updateFirst_map_secret _ _ _ (fun p => rfl)
                · simp [makeGuess, hst, hval, hfp, hfo, hos, hs0, hw] at h
                  obtain ⟨h1, -, -⟩ := h
                  rw [← h1]
                  exact updateFirst_map_secret _ _ _ (fun p => rfl)
      · simp [makeGuess, hst, hval] at h
    · simp [makeGuess, hst] at h
  · intro room pid e t r h
    cases hfp : findPlayer room.players pid with
    | none => simp [sendReaction, hfp] at h
    | some q =>
      simp [sendReaction, hfp] at h
      rw [← h]
      exact updateFirst_map_secret _ _ _ (fun p => rfl)
  · intro room pid s r h i p hpi hne
    by_cases hval : isDigitString s room.digitCount
    · cases hfp : findPlayer room.players pid with
      | none => simp [setSecret, hval, hfp] at h
      | some q =>
        simp [setSecret, hval, hfp] at h
        rw [← h]
        exact updateFirst_getElem_ne room.players pid _ i p hpi hne
    · simp [setSecret, hval] at h

/-- Witness for the amended C6: the concrete winning guess of player a
leaves both stored secrets unchanged. -/
theorem secret_changed_only_by_setSecret_witness :
    roomAfterWin.players.map Player.secret = roomLive.players.map Player.secret :=
  secret_changed_only_by_setSecret.2.1 roomLive "a" "5678" 10 roomAfterWin
    { value := "5678", feedback := evaluateGuess "5678" "5678", createdAt := 10 } true
    (by decide)

end DigitDuel
